import Mathlib

/-!
# Verification of the termo-multiplayer room/session authority

Shallow embedding of `src/server/src/services/gameService.ts` and
`src/server/src/services/roomService.ts` (data model from
`src/server/src/models/Player.ts` / `Room.ts`).

Conventions of the embedding:
* JS `Date` values are modelled as `Int` milliseconds (`Date.getTime()`).
* JS `Map` registries are modelled as functions `String → Option _`.
* Nondeterministic inputs (uuid, `Math.random`, the Dictionary's random
  target word, the wall clock) are passed as explicit parameters.
* `WordService` (normalization / validity) is an external collaborator;
  `validateGuess` is embedded over the already-normalized letter lists,
  with out-of-range indexing modelled by `Option Char` (JS `undefined`,
  for which `undefined === undefined` is `true`).
* JS `Array.prototype.sort` (stable since ES2019) applied to a consistent
  comparator is embedded as the stable `List.insertionSort`.
-/

/-- `LetterResult.status`: one of `'correct' | 'present' | 'absent'`. -/
inductive LetterStatus
  | correct
  | present
  | absent
deriving DecidableEq, Repr

/-- `LetterResult` from `models/Player.ts`. The `letter` field is
`Option Char` because the source reads `guess.split('')[i]` for a fixed
`i < 5`, which is `undefined` past the end of the string. -/
structure LetterResult where
  letter : Option Char
  status : LetterStatus
deriving DecidableEq, Repr

/-- `Player.status`: `'waiting' | 'playing' | 'won' | 'lost'`. -/
inductive PlayerStatus
  | waiting
  | playing
  | won
  | lost
deriving DecidableEq, Repr

/-- `Guess` from `models/Player.ts`. -/
structure Guess where
  word : String
  result : List LetterResult
  timestamp : Int
deriving DecidableEq, Repr

/-- `Player` from `models/Player.ts`. -/
structure Player where
  id : String
  name : String
  socketId : String
  roomId : String
  isLeader : Bool
  guesses : List Guess
  status : PlayerStatus
  joinTime : Int
  finishTime : Option Int := none
  currentRow : Nat
  disconnectedAt : Option Int := none
  isDisconnected : Option Bool := none
deriving DecidableEq, Repr

instance : Inhabited Player :=
  ⟨{ id := "", name := "", socketId := "", roomId := "", isLeader := false,
     guesses := [], status := .waiting, joinTime := 0, currentRow := 0 }⟩

/-- `PlayerRanking.status`: `'won' | 'lost'`. -/
inductive RankStatus
  | won
  | lost
deriving DecidableEq, Repr

/-- `PlayerRanking` from `models/Player.ts`. `timeTaken` is optional
(`undefined` when the player has no `finishTime`). -/
structure PlayerRanking where
  playerId : String
  playerName : String
  guessesUsed : Nat
  timeTaken : Option Int
  status : RankStatus
  rank : Nat
deriving DecidableEq, Repr

/-- Room / Game lifecycle status: `'waiting' | 'playing' | 'finished'`. -/
inductive SessStatus
  | waiting
  | playing
  | finished
deriving DecidableEq, Repr

/-- `Game` from `models/Room.ts`. -/
structure Game where
  id : String
  roomId : String
  targetWord : String
  players : List Player
  status : SessStatus
  startTime : Option Int := none
  endTime : Option Int := none
  rankings : List PlayerRanking
  timeLimit : Nat
deriving DecidableEq, Repr

/-- `Room` from `models/Room.ts`. -/
structure Room where
  id : String
  code : String
  players : List Player
  status : SessStatus
  createdAt : Int
  maxPlayers : Nat
  password : Option String := none
  isPrivate : Bool
  game : Option Game := none
deriving DecidableEq, Repr

/-- `RoomSettings` from `models/Room.ts`. -/
structure RoomSettings where
  maxPlayers : Nat
  timeLimit : Nat
  wordLength : Nat
  maxGuesses : Nat
deriving DecidableEq, Repr

/-- `RoomService.DEFAULT_SETTINGS`. -/
def DEFAULT_SETTINGS : RoomSettings :=
  { maxPlayers := 8, timeLimit := 600, wordLength := 5, maxGuesses := 6 }

/-! ## GameService.validateGuess (gameService.ts lines 9-52)

First pass (`for (let i = 0; i < 5; i++)`): positions with
`guessLetters[i] === targetLetters[i]` are marked `correct`; the others are
provisionally `absent` while the target letter, the guess letter and the
position are pushed onto the remaining pools.  Second pass: scanning the
remaining positions left to right, a guess letter found in the remaining
target pool (`indexOf` + `splice`, i.e. erase the first occurrence) flips
its position to `present`. -/

/-- Indices `i < 5` where the first pass does not mark `correct`. -/
def notCorrectIdx (g t : List Char) : List Nat :=
  (List.range 5).filter fun i => decide (¬ g[i]? = t[i]?)

/-- Result array after the first pass. -/
def firstResult (g t : List Char) : List LetterResult :=
  (List.range 5).map fun i =>
    if g[i]? = t[i]? then ⟨g[i]?, .correct⟩ else ⟨g[i]?, .absent⟩

/-- `remainingTargetLetters` after the first pass. -/
def remTarget (g t : List Char) : List (Option Char) :=
  (notCorrectIdx g t).map fun i => t[i]?

/-- `remainingGuessLetters` zipped with `remainingPositions`. -/
def remPairs (g t : List Char) : List (Option Char × Nat) :=
  (notCorrectIdx g t).map fun i => (g[i]?, i)

/-- `result[position].status = s` keeping the stored letter. -/
def setStatus (res : List LetterResult) (pos : Nat) (s : LetterStatus) :
    List LetterResult :=
  res.set pos ⟨(res.getD pos ⟨none, .absent⟩).letter, s⟩

/-- Second pass of `validateGuess`: `indexOf` + `splice` on the remaining
target pool is `List.erase` (first occurrence). -/
def secondPass (res : List LetterResult) (pool : List (Option Char)) :
    List (Option Char × Nat) → List LetterResult
  | [] => res
  | (gl, pos) :: rest =>
    if gl ∈ pool then secondPass (setStatus res pos .present) (pool.erase gl) rest
    else secondPass res pool rest

/-- `GameService.validateGuess` on normalized letter lists (normalization
and the `isValidGuess` precondition belong to the external `WordService`;
the evaluation itself is embedded here). -/
def validateGuess (g t : List Char) : List LetterResult :=
  secondPass (firstResult g t) (remTarget g t) (remPairs g t)

/-- `GameService.hasPlayerWon`: `guessResult.every(l => l.status === 'correct')`. -/
def hasPlayerWon (guessResult : List LetterResult) : Bool :=
  guessResult.all fun l => l.status == .correct

/-- `GameService.updatePlayerAfterGuess` (gameService.ts lines 142-156);
`now` is the `new Date()` taken at the terminal transition. -/
def updatePlayerAfterGuess (player : Player) (guess : Guess) (now : Int) : Player :=
  let base := { player with
    guesses := player.guesses ++ [guess],
    currentRow := player.guesses.length + 1 }
  if hasPlayerWon guess.result then
    { base with status := .won, finishTime := some now }
  else if base.guesses.length ≥ 6 then
    { base with status := .lost, finishTime := some now }
  else
    base

/-! ## GameService.calculateRankings (gameService.ts lines 71-117) -/

/-- The entry built for each player before sorting (`rank` provisionally 0).
`timeTaken` is `finishTime.getTime() - gameStartTime.getTime()` when the
player has a `finishTime`, `undefined` otherwise; `status` is `'won'` for a
won player and `'lost'` for every other status. -/
def toRanking (gameStartTime : Int) (player : Player) : PlayerRanking :=
  { playerId := player.id,
    playerName := player.name,
    guessesUsed := player.guesses.length,
    timeTaken := player.finishTime.map fun ft => ft - gameStartTime,
    status := if player.status = .won then .won else .lost,
    rank := 0 }

/-- JS truthiness of the optional `timeTaken` number: `undefined` and `0`
are falsy, every other integer is truthy. -/
def numTruthy (t : Option Int) : Prop :=
  t.getD 0 ≠ 0

instance (t : Option Int) : Decidable (numTruthy t) := by
  unfold numTruthy; infer_instance

/-- The comparator passed to `rankings.sort` (gameService.ts lines 89-109),
returning the sign-carrying integer of the source. -/
def compareRankings (a b : PlayerRanking) : Int :=
  if a.status = .won ∧ b.status = .lost then -1
  else if a.status = .lost ∧ b.status = .won then 1
  else if a.guessesUsed ≠ b.guessesUsed then
    (a.guessesUsed : Int) - (b.guessesUsed : Int)
  else if numTruthy a.timeTaken ∧ numTruthy b.timeTaken then
    a.timeTaken.getD 0 - b.timeTaken.getD 0
  else if numTruthy a.timeTaken ∧ ¬ numTruthy b.timeTaken then -1
  else if ¬ numTruthy a.timeTaken ∧ numTruthy b.timeTaken then 1
  else 0

/-- `a` may be placed no later than `b` by the comparator. -/
def rankLE (a b : PlayerRanking) : Prop :=
  compareRankings a b ≤ 0

instance : DecidableRel rankLE := fun a b => by
  unfold rankLE; infer_instance

/-- `rankings.forEach((ranking, index) => ranking.rank = index + 1)`,
generalized over the first rank to recurse. -/
def assignRanks : List PlayerRanking → Nat → List PlayerRanking
  | [], _ => []
  | r :: rs, k => { r with rank := k } :: assignRanks rs (k + 1)

/-- `GameService.calculateRankings`: map to entries, stable-sort by the
comparator (JS `sort` is stable; the comparator is consistent, so the
result is the stable sort by `rankLE`), then assign ranks `1..N`. -/
def calculateRankings (players : List Player) (gameStartTime : Int) :
    List PlayerRanking :=
  assignRanks (List.insertionSort rankLE (players.map (toRanking gameStartTime))) 1

/-! ## RoomService (roomService.ts) -/

/-- The two static registries of `RoomService`: `rooms : Map<string, Room>`
(room id → room) and `roomCodes : Map<string, string>` (code → room id),
modelled as partial functions. -/
structure RegistryState where
  rooms : String → Option Room
  roomCodes : String → Option String

/-- `Map.set` / `Map.delete` on a partial-function map. -/
def setMap {β : Type} (m : String → Option β) (k : String) (v : Option β) :
    String → Option β :=
  fun x => if x = k then v else m x

/-- `String.prototype.toUpperCase()` restricted to the ASCII range used by
room codes, as char-wise `Char.toUpper`. -/
def toUpperStr (s : String) : String :=
  String.mk (s.data.map Char.toUpper)

/-- `RoomService.deleteRoom`: drop the room id from `rooms` and its code
from `roomCodes`. -/
def deleteRoom (st : RegistryState) (roomId : String) : RegistryState :=
  match st.rooms roomId with
  | none => st
  | some room =>
    { rooms := setMap st.rooms roomId none,
      roomCodes := setMap st.roomCodes room.code none }

/-- The record returned by `removePlayer`. -/
structure RemoveResult where
  room : Option Room
  destroyed : Bool
  reason : Option String := none
deriving DecidableEq, Repr

/-- `RoomService.removePlayer` (roomService.ts lines 107-130). JS
`findIndex` returning `-1` corresponds to `List.findIdx` returning the
length; `splice(i, 1)` is `eraseIdx`. The in-place mutation of the room
object held by the `rooms` map is modelled by writing the shrunken room
back into the map before the destruction checks. -/
def removePlayer (st : RegistryState) (roomId playerId : String) :
    RegistryState × RemoveResult :=
  match st.rooms roomId with
  | none => (st, ⟨none, false, none⟩)
  | some room =>
    let playerIndex := room.players.findIdx fun p => p.id == playerId
    if playerIndex = room.players.length then (st, ⟨some room, false, none⟩)
    else
      let removedPlayer := room.players.getD playerIndex default
      let players2 := room.players.eraseIdx playerIndex
      let room2 := { room with players := players2 }
      let st2 : RegistryState := { st with rooms := setMap st.rooms roomId (some room2) }
      if players2.length = 0 then
        (deleteRoom st2 roomId, ⟨none, true, some "empty"⟩)
      else if removedPlayer.isLeader then
        (deleteRoom st2 roomId, ⟨none, true, some "leader_left"⟩)
      else
        (st2, ⟨some room2, false, none⟩)

/-- `RoomService.getRoom`: `rooms.get(roomId) || null`. -/
def getRoom (st : RegistryState) (roomId : String) : Option Room :=
  st.rooms roomId

/-- `RoomService.getRoomByCode` (roomService.ts lines 225-228): look the
uppercased code up in `roomCodes`, then resolve the room id. -/
def getRoomByCode (st : RegistryState) (code : String) : Option Room :=
  match st.roomCodes (toUpperStr code) with
  | some roomId => getRoom st roomId
  | none => none

/-- `JoinRoomRequest` from `models/Room.ts`. -/
structure JoinRoomRequest where
  roomCode : String
  playerName : String
  password : Option String := none

/-- The distinct failures thrown by `joinRoom`; the spec's `InvalidPassword`
covers both `passwordRequired` (`'Esta sala é privada...'`) and
`wrongPassword` (`'Senha incorreta'`). An unknown code returns `null`
(`RoomNotFound`) rather than throwing. -/
inductive JoinError
  | passwordRequired
  | wrongPassword
  | roomFull
  | duplicateName
deriving DecidableEq, Repr

/-- `RoomService.joinRoom` (roomService.ts lines 59-102). `uuidv4()`, the
socket id and `new Date()` are the parameters `newPlayerId`, `socketId`,
`now`. JS `!request.password` is falsy for both a missing and an empty
password. Returns the new state with the thrown error or the
`{ room, player } | null` result. -/
def joinRoom (st : RegistryState) (request : JoinRoomRequest)
    (socketId newPlayerId : String) (now : Int) :
    RegistryState × Except JoinError (Option (Room × Player)) :=
  match st.roomCodes (toUpperStr request.roomCode) with
  | none => (st, .ok none)
  | some roomId =>
    match st.rooms roomId with
    | none => (st, .ok none)
    | some room =>
      if room.isPrivate ∧ request.password.getD "" = "" then
        (st, .error .passwordRequired)
      else if room.isPrivate ∧ request.password ≠ room.password then
        (st, .error .wrongPassword)
      else if room.players.length ≥ room.maxPlayers then
        (st, .error .roomFull)
      else if (room.players.find? fun p => p.name == request.playerName).isSome then
        (st, .error .duplicateName)
      else
        let player : Player :=
          { id := newPlayerId, name := request.playerName, socketId := socketId,
            roomId := roomId, isLeader := false, guesses := [],
            status := .waiting, joinTime := now, currentRow := 0 }
        let room2 := { room with players := room.players ++ [player] }
        ({ st with rooms := setMap st.rooms roomId (some room2) },
         .ok (some (room2, player)))

/-- `RoomService.resetGame` (roomService.ts lines 180-213). The fresh
`uuidv4()` and the Dictionary's new random target word are the parameters
`gameId` and `targetWord`. Returns `null` when the room or its game is
missing, throws when the requester is not the leader. -/
def resetGame (st : RegistryState) (roomId leaderId : String)
    (gameId targetWord : String) :
    RegistryState × Except String (Option Game) :=
  match st.rooms roomId with
  | none => (st, .ok none)
  | some room =>
    match room.game with
    | none => (st, .ok none)
    | some _ =>
      match room.players.find? fun p => p.id == leaderId with
      | none => (st, .error "Apenas o líder pode reiniciar o jogo")
      | some leader =>
        if leader.isLeader then
          let game : Game :=
            { id := gameId, roomId := roomId, targetWord := targetWord,
              players := room.players.map (fun p =>
                { p with guesses := [], status := .waiting,
                         currentRow := 0, finishTime := none }),
              status := .waiting, startTime := none, endTime := none,
              rankings := [], timeLimit := DEFAULT_SETTINGS.timeLimit }
          let room2 := { room with game := some game, status := .waiting }
          ({ st with rooms := setMap st.rooms roomId (some room2) },
           .ok (some game))
        else
          (st, .error "Apenas o líder pode reiniciar o jogo")

/-! ## Counting marks for the duplicate-letter cap (C1) -/

/-- An entry counts as a mark of `c` when its stored letter is `c` and it
ended up `correct` or `present`. -/
def marksPred (c : Char) (r : LetterResult) : Bool :=
  r.letter == some c && (r.status == .correct || r.status == .present)

/-- Number of positions where the guess letter `c` is marked `correct` or
`present` in a result list. -/
def marks (c : Char) (res : List LetterResult) : Nat :=
  res.countP (marksPred c)

lemma countP_set_le {α : Type} (l : List α) (n : Nat) (a : α) (p : α → Bool) :
    (l.set n a).countP p ≤ l.countP p + if p a then 1 else 0 := by
  induction l generalizing n with
  | nil => simp
  | cons x xs ih =>
    cases n with
    | zero =>
      simp only [List.set_cons_zero, List.countP_cons]
      split_ifs <;> omega
    | succ m =>
      simp only [List.set_cons_succ, List.countP_cons]
      have := ih m
      split_ifs at this ⊢ <;> omega

lemma setStatus_letter (res : List LetterResult) (pos q : Nat) (s : LetterStatus) :
    ((setStatus res pos s).getD q ⟨none, .absent⟩).letter =
      (res.getD q ⟨none, .absent⟩).letter := by
  unfold setStatus
  rcases Nat.lt_or_ge pos res.length with hp | hp
  · by_cases hq : pos = q
    · subst hq
      rw [List.getD_eq_getElem?_getD, List.getD_eq_getElem?_getD,
        List.getElem?_set_self hp, List.getElem?_eq_getElem hp]
      simp [List.getD_eq_getElem?_getD, List.getElem?_eq_getElem hp]
    · simp [List.getD_eq_getElem?_getD, List.getElem?_set_ne hq]
  · rw [List.set_eq_of_length_le hp]

lemma secondPass_marks_le (c : Char) (rem : List (Option Char × Nat)) :
    ∀ (res : List LetterResult) (pool : List (Option Char)),
      (∀ pr ∈ rem, (res.getD pr.2 ⟨none, .absent⟩).letter = pr.1) →
      marks c (secondPass res pool rem) ≤ marks c res + pool.count (some c) := by
  induction rem with
  | nil => intro res pool _; simp [secondPass]
  | cons pr rest ih =>
    obtain ⟨gl, pos⟩ := pr
    intro res pool hinv
    have hlet : (res.getD pos ⟨none, .absent⟩).letter = gl :=
      hinv (gl, pos) (List.mem_cons_self _ _)
    unfold secondPass
    by_cases hm : gl ∈ pool
    · rw [if_pos hm]
      have hinv2 : ∀ pr ∈ rest,
          ((setStatus res pos .present).getD pr.2 ⟨none, .absent⟩).letter = pr.1 :=
        fun pr h => (setStatus_letter res pos pr.2 .present).trans
          (hinv pr (List.mem_cons_of_mem _ h))
      have hrec := ih (setStatus res pos .present) (pool.erase gl) hinv2
      have hset : marks c (setStatus res pos .present) ≤
          marks c res + if gl = some c then 1 else 0 := by
        unfold marks setStatus
        rw [hlet]
        simpa [marksPred] using countP_set_le res pos ⟨gl, .present⟩ (marksPred c)
      by_cases hc : gl = some c
      · subst hc
        have hcnt : (pool.erase (some c)).count (some c) = pool.count (some c) - 1 :=
          List.count_erase_self _ _
        have hpos : 0 < pool.count (some c) := List.count_pos_iff.mpr hm
        have hset2 : marks c (setStatus res pos .present) ≤ marks c res + 1 := by
          simpa using hset
        omega
      · have hcnt : (pool.erase gl).count (some c) = pool.count (some c) :=
          List.count_erase_of_ne (fun h => hc h.symm) _
        have hset2 : marks c (setStatus res pos .present) ≤ marks c res := by
          simpa [hc] using hset
        omega
    · rw [if_neg hm]
      exact ih res pool fun pr h => hinv pr (List.mem_cons_of_mem _ h)

lemma countP_split {α : Type} (l : List α) (p q : α → Bool) :
    l.countP q = l.countP (fun a => p a && q a) + l.countP (fun a => !p a && q a) := by
  induction l with
  | nil => simp
  | cons x xs ih =>
    simp only [List.countP_cons, ih]
    cases hp : p x <;> cases hq : q x <;> simp [hp, hq] <;> omega

lemma countP_getElem_eq_count_take (t : List Char) (c : Char) (n : Nat) :
    (List.range n).countP (fun i => t[i]? == some c) = (t.take n).count c := by
  induction n with
  | zero => simp
  | succ m ih =>
    rw [List.range_succ, List.countP_append, List.take_succ, List.count_append, ih]
    cases h : t[m]? with
    | none => simp [h]
    | some a =>
      simp only [Option.toList_some, List.countP_cons, List.countP_nil,
        List.count_cons, List.count_nil, h]
      by_cases hac : a = c <;> simp [hac]

lemma marks_firstResult (c : Char) (g t : List Char) :
    marks c (firstResult g t) =
      (List.range 5).countP fun i => decide (g[i]? = t[i]?) && (t[i]? == some c) := by
  unfold marks firstResult
  rw [List.countP_map]
  refine List.countP_congr fun i _ => ?_
  by_cases heq : g[i]? = t[i]?
  · simp [Function.comp, heq, marksPred]
  · simp [Function.comp, heq, marksPred]

lemma count_remTarget (c : Char) (g t : List Char) :
    (remTarget g t).count (some c) =
      (List.range 5).countP fun i => !decide (g[i]? = t[i]?) && (t[i]? == some c) := by
  unfold remTarget notCorrectIdx
  rw [List.count_eq_countP, List.countP_map, List.countP_filter]
  refine List.countP_congr fun i _ => ?_
  by_cases heq : g[i]? = t[i]? <;> simp [Function.comp, heq]

/-- C1, the key inequality at the level of the two passes: `correct` marks
plus the initial remaining-pool multiplicity of `c` never exceed the number
of occurrences of `c` in the target. -/
lemma first_marks_add_pool (c : Char) (g t : List Char) :
    marks c (firstResult g t) + (remTarget g t).count (some c) ≤ t.count c := by
  rw [marks_firstResult, count_remTarget]
  have h3 := countP_split (List.range 5) (fun i => decide (g[i]? = t[i]?))
    (fun i => t[i]? == some c)
  have h4 := countP_getElem_eq_count_take t c 5
  have h5 := (List.take_sublist 5 t).count_le c
  omega

lemma validateGuess_letter_firstResult (g t : List Char) :
    ∀ pr ∈ remPairs g t, ((firstResult g t).getD pr.2 ⟨none, .absent⟩).letter = pr.1 := by
  intro pr hpr
  unfold remPairs notCorrectIdx at hpr
  obtain ⟨i, hi, hpr⟩ := List.mem_map.mp hpr
  have hi5 : i < 5 := by
    have := List.mem_filter.mp hi
    simpa using List.mem_range.mp this.1
  subst hpr
  unfold firstResult
  rw [List.getD_eq_getElem?_getD, List.getElem?_map, List.getElem?_range hi5]
  by_cases heq : g[i]? = t[i]? <;> simp [heq]

/-- **C1**: for every guess and every target word, each letter of the guess
is marked `correct` or `present` at most as many times, in total, as that
letter occurs in the target: the second pass consumes one occurrence of the
remaining target pool per `present` mark. -/
theorem validateGuess_letter_cap (c : Char) (g t : List Char) :
    marks c (validateGuess g t) ≤ t.count c := by
  unfold validateGuess
  have h1 := secondPass_marks_le c (remPairs g t) (firstResult g t) (remTarget g t)
    (validateGuess_letter_firstResult g t)
  have h2 := first_marks_add_pool c g t
  omega

/-! ## Result length (C6) -/

lemma length_setStatus (res : List LetterResult) (pos : Nat) (s : LetterStatus) :
    (setStatus res pos s).length = res.length := by
  unfold setStatus; exact List.length_set ..

lemma length_secondPass (rem : List (Option Char × Nat)) :
    ∀ (res : List LetterResult) (pool : List (Option Char)),
      (secondPass res pool rem).length = res.length := by
  induction rem with
  | nil => intro res pool; simp [secondPass]
  | cons pr rest ih =>
    obtain ⟨gl, pos⟩ := pr
    intro res pool
    unfold secondPass
    by_cases hm : gl ∈ pool
    · rw [if_pos hm, ih, length_setStatus]
    · rw [if_neg hm, ih]

/-- **C6**: for a target word accepted by the Dictionary — i.e. of the
configured word length 5 (`DEFAULT_SETTINGS.wordLength`) — `validateGuess`
returns exactly as many entries as the target has letters. -/
theorem validateGuess_length (g t : List Char)
    (h : t.length = DEFAULT_SETTINGS.wordLength) :
    (validateGuess g t).length = t.length := by
  unfold validateGuess
  rw [length_secondPass]
  unfold firstResult
  simp [h, DEFAULT_SETTINGS]

/-- Witness for C6 at a concrete guess and target. -/
theorem validateGuess_length_witness :
    "ABCDE".data.length = DEFAULT_SETTINGS.wordLength ∧
      (validateGuess "FGHIJ".data "ABCDE".data).length = "ABCDE".data.length :=
  ⟨by decide, validateGuess_length "FGHIJ".data "ABCDE".data (by decide)⟩

/-- **C7**: target `ABCDE`, guess `AABBC` evaluates to
`[correct, absent, present, absent, present]`: the first guessed `B`
consumes the single target `B`, so the second guessed `B` stays `absent`. -/
theorem validateGuess_duplicate_example :
    (validateGuess "AABBC".data "ABCDE".data).map (·.status) =
      [.correct, .absent, .present, .absent, .present] := by decide

/-! ## updatePlayerAfterGuess (C3, C9) -/

lemma hasPlayerWon_iff (rs : List LetterResult) :
    hasPlayerWon rs = true ↔ ∀ r ∈ rs, r.status = .correct := by
  simp [hasPlayerWon, List.all_eq_true]

/-- **C3**: `updatePlayerAfterGuess` appends the guess, advances
`currentRow` by one (the counter equals the number of recorded guesses for
every player produced by the service), and transitions the status: `won`
when every letter of the result is `correct`, `lost` when this was the 6th
recorded guess without winning, unchanged (`playing`) otherwise; a finish
timestamp is set on either terminal transition. -/
theorem updatePlayerAfterGuess_spec (player : Player) (guess : Guess) (now : Int)
    (hrow : player.currentRow = player.guesses.length)
    (hlt : player.guesses.length < 6)
    (hstat : player.status = .playing) :
    (updatePlayerAfterGuess player guess now).guesses = player.guesses ++ [guess] ∧
    (updatePlayerAfterGuess player guess now).currentRow = player.currentRow + 1 ∧
    ((∀ r ∈ guess.result, r.status = .correct) →
      (updatePlayerAfterGuess player guess now).status = .won ∧
      (updatePlayerAfterGuess player guess now).finishTime = some now) ∧
    (¬ (∀ r ∈ guess.result, r.status = .correct) →
      player.guesses.length + 1 = 6 →
      (updatePlayerAfterGuess player guess now).status = .lost ∧
      (updatePlayerAfterGuess player guess now).finishTime = some now) ∧
    (¬ (∀ r ∈ guess.result, r.status = .correct) →
      player.guesses.length + 1 ≠ 6 →
      (updatePlayerAfterGuess player guess now).status = player.status ∧
      (updatePlayerAfterGuess player guess now).finishTime = player.finishTime) := by
  refine ⟨?_, ?_, ?_, ?_, ?_⟩
  · simp only [updatePlayerAfterGuess]
    split_ifs <;> rfl
  · simp only [updatePlayerAfterGuess]
    split_ifs <;> simp [hrow]
  · intro hc
    have hw : hasPlayerWon guess.result = true := (hasPlayerWon_iff _).mpr hc
    simp [updatePlayerAfterGuess, hw]
  · intro hne h6
    have hw : ¬ hasPlayerWon guess.result = true :=
      fun h => hne ((hasPlayerWon_iff _).mp h)
    simp [updatePlayerAfterGuess, hw, show 5 ≤ player.guesses.length by omega]
  · intro hne h6
    have hw : ¬ hasPlayerWon guess.result = true :=
      fun h => hne ((hasPlayerWon_iff _).mp h)
    simp [updatePlayerAfterGuess, hw, hstat, show ¬ 5 ≤ player.guesses.length by omega]

/-- Concrete playing player used by the C3 witness. -/
def wPlayer : Player :=
  { id := "p1", name := "ana", socketId := "s1", roomId := "r1",
    isLeader := true, guesses := [], status := .playing, joinTime := 0,
    currentRow := 0 }

/-- Concrete all-correct guess used by the C3 witness. -/
def wGuess : Guess :=
  { word := "ABCDE", result := [⟨some 'A', .correct⟩], timestamp := 3 }

/-- Witness for C3 at a concrete playing player and all-correct guess. -/
theorem updatePlayerAfterGuess_spec_witness :
    (updatePlayerAfterGuess wPlayer wGuess 7).guesses = wPlayer.guesses ++ [wGuess] ∧
    (updatePlayerAfterGuess wPlayer wGuess 7).currentRow = wPlayer.currentRow + 1 ∧
    ((∀ r ∈ wGuess.result, r.status = .correct) →
      (updatePlayerAfterGuess wPlayer wGuess 7).status = .won ∧
      (updatePlayerAfterGuess wPlayer wGuess 7).finishTime = some 7) ∧
    (¬ (∀ r ∈ wGuess.result, r.status = .correct) →
      wPlayer.guesses.length + 1 = 6 →
      (updatePlayerAfterGuess wPlayer wGuess 7).status = .lost ∧
      (updatePlayerAfterGuess wPlayer wGuess 7).finishTime = some 7) ∧
    (¬ (∀ r ∈ wGuess.result, r.status = .correct) →
      wPlayer.guesses.length + 1 ≠ 6 →
      (updatePlayerAfterGuess wPlayer wGuess 7).status = wPlayer.status ∧
      (updatePlayerAfterGuess wPlayer wGuess 7).finishTime = wPlayer.finishTime) :=
  updatePlayerAfterGuess_spec wPlayer wGuess 7 (by decide) (by decide) (by decide)

/-- **C9**: `hasPlayerWon` on the empty letter-result list is `true`
(`Array.prototype.every` is vacuously true), so `updatePlayerAfterGuess`
applied to a non-terminal player with an empty-result guess transitions the
player to `won` and sets a finish time. -/
theorem hasPlayerWon_empty_spec (player : Player) (guess : Guess) (now : Int)
    (hres : guess.result = [])
    (hterm : player.status ≠ .won ∧ player.status ≠ .lost) :
    hasPlayerWon [] = true ∧
    (updatePlayerAfterGuess player guess now).status = .won ∧
    (updatePlayerAfterGuess player guess now).finishTime = some now := by
  refine ⟨rfl, ?_, ?_⟩ <;> simp [updatePlayerAfterGuess, hasPlayerWon, hres]

/-! ## Ranking order (C2)

The spec's ordering relation (clauses (a)-(d) of `computeRankings`) and the
amended relation actually implemented by the comparator, which tests JS
truthiness of `timeTaken` — so an elapsed time of exactly `0` is treated
like a missing finish time. -/

/-- Ascending order on optional elapsed times as the claim reads them:
ascending when both are present, a present time before an absent one, ties
allowed otherwise. -/
def timeLEb : Option Int → Option Int → Bool
  | some u, some v => decide (u ≤ v)
  | _, none => true
  | none, some _ => false

/-- C2's ordering relation as the claim states it: `won` before `lost`;
among equal outcomes ascending guesses-used; among equal guesses-used,
ascending elapsed time when both entries have a finish time, and a finished
entry before an unfinished one. -/
def specPrecedes (a b : PlayerRanking) : Prop :=
  (a.status = .won ∧ b.status = .lost) ∨
  (a.status = b.status ∧
    (a.guessesUsed < b.guessesUsed ∨
      (a.guessesUsed = b.guessesUsed ∧ timeLEb a.timeTaken b.timeTaken = true)))

/-- The elapsed time as the comparator observes it: a zero elapsed time is
falsy in JS, hence indistinguishable from a missing finish time. -/
def finishedKey (t : Option Int) : Option Int :=
  if t.getD 0 = 0 then none else t

/-- The amended C2 ordering: as `specPrecedes`, except that an elapsed time
of zero is treated as an absent finish time in clauses (c) and (d). -/
def amendedPrecedes (a b : PlayerRanking) : Prop :=
  (a.status = .won ∧ b.status = .lost) ∨
  (a.status = b.status ∧
    (a.guessesUsed < b.guessesUsed ∨
      (a.guessesUsed = b.guessesUsed ∧
        timeLEb (finishedKey a.timeTaken) (finishedKey b.timeTaken) = true)))

/-- The time tail of the comparator in isolation. -/
def timeCmp (x y : Option Int) : Int :=
  if numTruthy x ∧ numTruthy y then x.getD 0 - y.getD 0
  else if numTruthy x ∧ ¬ numTruthy y then -1
  else if ¬ numTruthy x ∧ numTruthy y then 1
  else 0

lemma compareRankings_eq_timeCmp (a b : PlayerRanking)
    (hs1 : ¬ (a.status = .won ∧ b.status = .lost))
    (hs2 : ¬ (a.status = .lost ∧ b.status = .won))
    (hg : a.guessesUsed = b.guessesUsed) :
    compareRankings a b = timeCmp a.timeTaken b.timeTaken := by
  unfold compareRankings timeCmp
  rw [if_neg hs1, if_neg hs2, if_neg (by simpa using hg)]

lemma timeCmp_le_iff (x y : Option Int) :
    timeCmp x y ≤ 0 ↔ timeLEb (finishedKey x) (finishedKey y) = true := by
  rcases x with _ | u <;> rcases y with _ | v <;>
    simp only [timeCmp, numTruthy, finishedKey, Option.getD_some, Option.getD_none] <;>
      split_ifs <;> simp_all [timeLEb] <;> omega

lemma rankLE_iff_amended (a b : PlayerRanking) :
    rankLE a b ↔ amendedPrecedes a b := by
  cases ha : a.status <;> cases hb : b.status
  case won.lost =>
    have hcmp : compareRankings a b = -1 := by
      unfold compareRankings
      rw [if_pos ⟨ha, hb⟩]
    simp [rankLE, hcmp, amendedPrecedes, ha, hb]
  case lost.won =>
    have hcmp : compareRankings a b = 1 := by
      unfold compareRankings
      rw [if_neg (by simp [ha]), if_pos ⟨ha, hb⟩]
    simp [rankLE, hcmp, amendedPrecedes, ha, hb]
  all_goals (
    by_cases hg : a.guessesUsed = b.guessesUsed
    · rw [rankLE, compareRankings_eq_timeCmp a b (by simp [ha, hb]) (by simp [ha, hb]) hg,
        timeCmp_le_iff]
      simp [amendedPrecedes, ha, hb, hg]
    · have hcmp : compareRankings a b = (a.guessesUsed : Int) - b.guessesUsed := by
        unfold compareRankings
        rw [if_neg (by simp [ha, hb]), if_neg (by simp [ha, hb]), if_pos hg]
      rw [rankLE, hcmp]
      simp [amendedPrecedes, ha, hb, hg]
      omega)

lemma timeLEb_total (x y : Option Int) : timeLEb x y = true ∨ timeLEb y x = true := by
  rcases x with _ | u <;> rcases y with _ | v <;> simp [timeLEb] <;> omega

lemma timeLEb_trans {x y z : Option Int} (h1 : timeLEb x y = true)
    (h2 : timeLEb y z = true) : timeLEb x z = true := by
  rcases x with _ | u <;> rcases y with _ | v <;> rcases z with _ | w <;>
    simp_all [timeLEb] <;> omega

lemma amendedPrecedes_total (a b : PlayerRanking) :
    amendedPrecedes a b ∨ amendedPrecedes b a := by
  unfold amendedPrecedes
  rcases timeLEb_total (finishedKey a.timeTaken) (finishedKey b.timeTaken) with ht | ht <;>
    rcases ha : a.status <;> rcases hb : b.status <;>
      rcases Nat.lt_trichotomy a.guessesUsed b.guessesUsed with hg | hg | hg <;>
        simp [ha, hb, hg, ht] <;> omega

lemma amendedPrecedes_trans {a b c : PlayerRanking}
    (h1 : amendedPrecedes a b) (h2 : amendedPrecedes b c) :
    amendedPrecedes a c := by
  rcases h1 with ⟨ha, hb⟩ | ⟨hs1, h1⟩
  · rcases h2 with ⟨hb2, _⟩ | ⟨hs2, _⟩
    · rw [hb] at hb2; cases hb2
    · exact Or.inl ⟨ha, hs2 ▸ hb⟩
  · rcases h2 with ⟨hb2, hc⟩ | ⟨hs2, h2⟩
    · exact Or.inl ⟨hs1 ▸ hb2, hc⟩
    · refine Or.inr ⟨hs1.trans hs2, ?_⟩
      rcases h1 with hg1 | ⟨he1, ht1⟩ <;> rcases h2 with hg2 | ⟨he2, ht2⟩
      · exact Or.inl (hg1.trans hg2)
      · exact Or.inl (he2 ▸ hg1)
      · exact Or.inl (he1 ▸ hg2)
      · exact Or.inr ⟨he1.trans he2, timeLEb_trans ht1 ht2⟩

instance : IsTotal PlayerRanking rankLE :=
  ⟨fun a b => by
    rw [rankLE_iff_amended, rankLE_iff_amended]
    exact amendedPrecedes_total a b⟩

instance : IsTrans PlayerRanking rankLE :=
  ⟨fun a b c h1 h2 => (rankLE_iff_amended a c).mpr
    (amendedPrecedes_trans ((rankLE_iff_amended a b).mp h1)
      ((rankLE_iff_amended b c).mp h2))⟩

instance : DecidableRel specPrecedes := fun a b => by
  unfold specPrecedes; infer_instance

instance : DecidableRel amendedPrecedes := fun a b => by
  unfold amendedPrecedes; infer_instance

lemma mem_assignRanks {y : PlayerRanking} :
    ∀ (l : List PlayerRanking) (k : Nat), y ∈ assignRanks l k →
      ∃ x ∈ l, ∃ j, y = { x with rank := j } := by
  intro l
  induction l with
  | nil => intro k h; simp [assignRanks] at h
  | cons x xs ih =>
    intro k h
    rcases (List.mem_cons).mp h with h | h
    · exact ⟨x, List.mem_cons_self _ _, k, h⟩
    · obtain ⟨x2, hx2, j, hy⟩ := ih (k + 1) h
      exact ⟨x2, List.mem_cons_of_mem _ hx2, j, hy⟩

lemma assignRanks_pairwise {R : PlayerRanking → PlayerRanking → Prop}
    (hR : ∀ a b i j, R a b → R { a with rank := i } { b with rank := j }) :
    ∀ (l : List PlayerRanking) (k : Nat),
      l.Pairwise R → (assignRanks l k).Pairwise R := by
  intro l
  induction l with
  | nil => intro k _; simp [assignRanks]
  | cons x xs ih =>
    intro k hp
    rw [List.pairwise_cons] at hp
    refine List.Pairwise.cons ?_ (ih (k + 1) hp.2)
    intro y hy
    obtain ⟨x2, hx2, j, rfl⟩ := mem_assignRanks _ _ hy
    exact hR x x2 k j (hp.1 x2 hx2)

lemma assignRanks_map_rank :
    ∀ (l : List PlayerRanking) (k : Nat),
      (assignRanks l k).map (·.rank) = List.range' k l.length := by
  intro l
  induction l with
  | nil => intro k; simp [assignRanks]
  | cons x xs ih => intro k; simp [assignRanks, ih, List.range']

lemma assignRanks_map_playerId :
    ∀ (l : List PlayerRanking) (k : Nat),
      (assignRanks l k).map (·.playerId) = l.map (·.playerId) := by
  intro l
  induction l with
  | nil => intro k; simp [assignRanks]
  | cons x xs ih => intro k; simp [assignRanks, ih]

lemma amendedPrecedes_rank_irrel (a b : PlayerRanking) (i j : Nat)
    (h : amendedPrecedes a b) :
    amendedPrecedes { a with rank := i } { b with rank := j } := by
  simpa [amendedPrecedes] using h

/-- **C2 (amended)**: for terminal players, `calculateRankings` returns one
entry per input player, ordered `won` before `lost`, then ascending
guesses-used, then ascending elapsed time where a zero elapsed time is
treated like a missing finish time (JS truthiness of `timeTaken`), a
nonzero-elapsed entry before a zero-or-missing one; ranks are `1..N`,
pairwise distinct. -/
theorem calculateRankings_ordering (players : List Player) (gameStartTime : Int)
    (hterm : ∀ p ∈ players, p.status = PlayerStatus.won ∨ p.status = PlayerStatus.lost) :
    ((calculateRankings players gameStartTime).map (·.playerId)).Perm
      (players.map (·.id)) ∧
    (calculateRankings players gameStartTime).Pairwise amendedPrecedes ∧
    (calculateRankings players gameStartTime).map (·.rank) =
      List.range' 1 players.length := by
  unfold calculateRankings
  refine ⟨?_, ?_, ?_⟩
  · rw [assignRanks_map_playerId]
    have h2 := (List.perm_insertionSort rankLE
      (players.map (toRanking gameStartTime))).map (·.playerId)
    simpa [List.map_map, Function.comp, toRanking] using h2
  · exact assignRanks_pairwise amendedPrecedes_rank_irrel _ _
      ((List.sorted_insertionSort rankLE _).imp fun h => (rankLE_iff_amended _ _).mp h)
  · rw [assignRanks_map_rank, List.length_insertionSort, List.length_map]

/-- Concrete guess for the C2 players. -/
def cGuess : Guess := { word := "XXXXX", result := [], timestamp := 0 }

/-- A won player with 3 guesses who finished 50 ms after session start. -/
def cP1 : Player :=
  { id := "P1", name := "P1", socketId := "s1", roomId := "r",
    isLeader := true, guesses := [cGuess, cGuess, cGuess], status := .won,
    joinTime := 0, finishTime := some 50, currentRow := 3 }

/-- A won player with 3 guesses who finished exactly at session start
(elapsed time 0 ms). -/
def cP2 : Player :=
  { id := "P2", name := "P2", socketId := "s2", roomId := "r",
    isLeader := false, guesses := [cGuess, cGuess, cGuess], status := .won,
    joinTime := 0, finishTime := some 0, currentRow := 3 }

/-- **C2 counterexample**: both players are terminal (`won`), both have a
finish time and 3 guesses, but the output is NOT ordered by ascending
elapsed time: the comparator treats `cP2`'s elapsed time `0` as falsy, so
the 50 ms entry precedes the 0 ms entry, violating the claim's clause (c). -/
theorem calculateRankings_claim_counterexample :
    (∀ p ∈ [cP1, cP2], p.status = PlayerStatus.won ∨ p.status = PlayerStatus.lost) ∧
    ¬ (calculateRankings [cP1, cP2] 0).Pairwise specPrecedes := by
  exact ⟨by decide, by decide⟩

/-- Witness for the amended C2 at the same concrete input. -/
theorem calculateRankings_ordering_witness :
    ((calculateRankings [cP1, cP2] 0).map (·.playerId)).Perm
      ([cP1, cP2].map (·.id)) ∧
    (calculateRankings [cP1, cP2] 0).Pairwise amendedPrecedes ∧
    (calculateRankings [cP1, cP2] 0).map (·.rank) =
      List.range' 1 [cP1, cP2].length :=
  calculateRankings_ordering [cP1, cP2] 0 (by decide)

/-! ## Case-insensitive room-code lookup (C10) -/

lemma char_toNat_ofNat (n : Nat) (h : n.isValidChar) : (Char.ofNat n).toNat = n := by
  have hlt : n < 2 ^ 32 := by rcases h with h | ⟨h1, h2⟩ <;> omega
  simp [Char.ofNat, h, Char.ofNatAux, Char.toNat, UInt32.toNat, UInt32.ofNatCore,
    Nat.mod_eq_of_lt hlt]

lemma toUpper_toUpper (c : Char) : c.toUpper.toUpper = c.toUpper := by
  simp only [Char.toUpper]
  by_cases h : c.toNat ≥ 97 ∧ c.toNat ≤ 122
  · rw [if_pos h]
    have hv : (c.toNat - 32).isValidChar := Or.inl (by omega)
    rw [char_toNat_ofNat _ hv, if_neg (by omega)]
  · rw [if_neg h, if_neg h]

lemma toUpperStr_idem (s : String) : toUpperStr (toUpperStr s) = toUpperStr s := by
  unfold toUpperStr
  simp only [List.map_map]
  congr 1
  exact List.map_congr_left fun c _ => toUpper_toUpper c

/-- **C10**: room-code lookup is case-insensitive — `getRoomByCode` and
`joinRoom` resolve a code and its uppercased form identically, because
every lookup uppercases its input first and uppercasing is idempotent
(generated codes are drawn from uppercase letters and digits, which
uppercasing fixes). -/
theorem roomCode_lookup_upper (st : RegistryState) (c playerName : String)
    (pw : Option String) (socketId newPlayerId : String) (now : Int) :
    getRoomByCode st c = getRoomByCode st (toUpperStr c) ∧
    joinRoom st { roomCode := c, playerName := playerName, password := pw }
        socketId newPlayerId now =
      joinRoom st { roomCode := toUpperStr c, playerName := playerName, password := pw }
        socketId newPlayerId now := by
  constructor
  · unfold getRoomByCode
    rw [toUpperStr_idem]
  · unfold joinRoom
    rw [toUpperStr_idem]

/-! ## Game reset (C5) -/

/-- **C5**: with an existing session and the leader as requester,
`resetGame` installs a fresh session carrying the newly drawn target word,
whose player snapshot preserves the roster (same ids and names, in order)
with every guess history cleared, status `waiting` and finish time unset;
both the room and the new session are `waiting`, not `playing`. -/
theorem resetGame_spec (st : RegistryState) (roomId leaderId gameId targetWord : String)
    (room : Room) (g0 : Game) (leader : Player)
    (hroom : st.rooms roomId = some room)
    (hgame : room.game = some g0)
    (hfind : (room.players.find? fun p => p.id == leaderId) = some leader)
    (hlead : leader.isLeader = true) :
    ∃ game : Game,
      resetGame st roomId leaderId gameId targetWord =
        ({ st with rooms := setMap st.rooms roomId
                     (some { room with game := some game, status := .waiting }) },
         .ok (some game)) ∧
      game.targetWord = targetWord ∧
      game.status = SessStatus.waiting ∧
      game.startTime = none ∧
      game.players.map (·.id) = room.players.map (·.id) ∧
      game.players.map (·.name) = room.players.map (·.name) ∧
      ∀ q ∈ game.players, q.guesses = [] ∧ q.status = PlayerStatus.waiting ∧
        q.finishTime = none := by
  refine ⟨{ id := gameId, roomId := roomId, targetWord := targetWord,
            players := room.players.map (fun p =>
              { p with guesses := [], status := .waiting,
                       currentRow := 0, finishTime := none }),
            status := .waiting, startTime := none, endTime := none,
            rankings := [], timeLimit := DEFAULT_SETTINGS.timeLimit },
          ?_, rfl, rfl, rfl, ?_, ?_, ?_⟩
  · simp only [resetGame, hroom, hgame, hfind, hlead, if_true]
  · simp [List.map_map, Function.comp]
  · simp [List.map_map, Function.comp]
  · intro q hq
    obtain ⟨p, _, rfl⟩ := List.mem_map.mp hq
    exact ⟨rfl, rfl, rfl⟩

/-- The leader of the concrete C5 room. -/
def c5leader : Player :=
  { id := "L", name := "lia", socketId := "sL", roomId := "r1",
    isLeader := true, guesses := [cGuess], status := .playing,
    joinTime := 0, finishTime := some 4, currentRow := 1 }

/-- The running session of the concrete C5 room. -/
def c5game0 : Game :=
  { id := "g0", roomId := "r1", targetWord := "AAAAA", players := [c5leader],
    status := .playing, startTime := some 0, rankings := [], timeLimit := 600 }

/-- The concrete C5 room. -/
def c5room : Room :=
  { id := "r1", code := "CODE11", players := [c5leader], status := .playing,
    createdAt := 0, maxPlayers := 8, isPrivate := false, game := some c5game0 }

/-- The concrete C5 registry state. -/
def c5state : RegistryState :=
  { rooms := fun x => if x = "r1" then some c5room else none,
    roomCodes := fun c => if c = "CODE11" then some "r1" else none }

/-- Witness for C5 at the concrete one-room registry. -/
theorem resetGame_spec_witness :
    ∃ game : Game,
      resetGame c5state "r1" "L" "g1" "BBBBB" =
        ({ c5state with rooms := setMap c5state.rooms "r1"
                          (some { c5room with game := some game, status := .waiting }) },
         .ok (some game)) ∧
      game.targetWord = "BBBBB" ∧
      game.status = SessStatus.waiting ∧
      game.startTime = none ∧
      game.players.map (·.id) = c5room.players.map (·.id) ∧
      game.players.map (·.name) = c5room.players.map (·.name) ∧
      ∀ q ∈ game.players, q.guesses = [] ∧ q.status = PlayerStatus.waiting ∧
        q.finishTime = none :=
  resetGame_spec c5state "r1" "L" "g1" "BBBBB" c5room c5game0 c5leader
    (by simp [c5state]) (by simp [c5room]) (by simp [c5room, c5leader])
    (by simp [c5leader])

/-- Witness for C9 at a concrete waiting player and empty-result guess. -/
theorem hasPlayerWon_empty_spec_witness :
    hasPlayerWon [] = true ∧
    (updatePlayerAfterGuess
        { id := "p2", name := "bea", socketId := "s2", roomId := "r1",
          isLeader := false, guesses := [], status := .waiting, joinTime := 0,
          currentRow := 0 }
        { word := "", result := [], timestamp := 1 } 9).status = .won ∧
    (updatePlayerAfterGuess
        { id := "p2", name := "bea", socketId := "s2", roomId := "r1",
          isLeader := false, guesses := [], status := .waiting, joinTime := 0,
          currentRow := 0 }
        { word := "", result := [], timestamp := 1 } 9).finishTime = some 9 :=
  hasPlayerWon_empty_spec
    { id := "p2", name := "bea", socketId := "s2", roomId := "r1",
      isLeader := false, guesses := [], status := .waiting, joinTime := 0,
      currentRow := 0 }
    { word := "", result := [], timestamp := 1 } 9 (by decide) (by decide)

/-! ## Player removal (C4) -/

/-- **C4**: removing a player that is in the roster: if the roster becomes
empty the room is deleted with reason `empty`; otherwise, if the removed
player was the leader, the room is deleted with the leader-left reason no
matter how many players remain (leadership is never transferred); otherwise
the room persists with only the roster entry removed, every other room is
untouched and the code registry — in particular this room's code mapping —
is unchanged. -/
theorem removePlayer_spec (st : RegistryState) (roomId pid : String) (room : Room)
    (hroom : st.rooms roomId = some room)
    (hmem : ∃ p ∈ room.players, p.id = pid) :
    (room.players.getD (room.players.findIdx fun p => p.id == pid) default).id = pid ∧
    (room.players.eraseIdx (room.players.findIdx fun p => p.id == pid) = [] →
      (removePlayer st roomId pid).2 = ⟨none, true, some "empty"⟩ ∧
      (removePlayer st roomId pid).1.rooms roomId = none ∧
      (removePlayer st roomId pid).1.roomCodes room.code = none) ∧
    (room.players.eraseIdx (room.players.findIdx fun p => p.id == pid) ≠ [] →
      (room.players.getD (room.players.findIdx fun p => p.id == pid) default).isLeader = true →
      (removePlayer st roomId pid).2 = ⟨none, true, some "leader_left"⟩ ∧
      (removePlayer st roomId pid).1.rooms roomId = none ∧
      (removePlayer st roomId pid).1.roomCodes room.code = none) ∧
    (room.players.eraseIdx (room.players.findIdx fun p => p.id == pid) ≠ [] →
      (room.players.getD (room.players.findIdx fun p => p.id == pid) default).isLeader = false →
      (removePlayer st roomId pid).2 =
        ⟨some { room with players :=
          room.players.eraseIdx (room.players.findIdx fun p => p.id == pid) },
          false, none⟩ ∧
      (removePlayer st roomId pid).1.rooms roomId =
        some { room with players :=
          room.players.eraseIdx (room.players.findIdx fun p => p.id == pid) } ∧
      (removePlayer st roomId pid).1.roomCodes = st.roomCodes ∧
      ∀ rid, rid ≠ roomId → (removePlayer st roomId pid).1.rooms rid = st.rooms rid) := by
  have hidx : (room.players.findIdx fun p => p.id == pid) < room.players.length := by
    refine List.findIdx_lt_length_of_exists ?_
    obtain ⟨p, hp, hpid⟩ := hmem
    exact ⟨p, hp, by simp [hpid]⟩
  have hne : ¬ ((room.players.findIdx fun p => p.id == pid) = room.players.length) :=
    Nat.ne_of_lt hidx
  have hgetid :
      (room.players.getD (room.players.findIdx fun p => p.id == pid) default).id = pid := by
    rw [List.getD_eq_getElem?_getD, List.getElem?_eq_getElem hidx]
    simpa using List.findIdx_getElem (w := hidx)
  refine ⟨hgetid, ?_, ?_, ?_⟩
  · intro hnil
    simp only [removePlayer, hroom, hne, if_false, hnil, List.length_nil, if_true,
      deleteRoom, setMap, if_pos rfl]
    simp [setMap]
  · intro hnnil hlead
    have hlen : ¬ ((room.players.eraseIdx
        (room.players.findIdx fun p => p.id == pid)).length = 0) := by
      simpa [List.length_eq_zero] using hnnil
    simp only [removePlayer, hroom, hne, if_false, hlen, hlead, if_true,
      deleteRoom, setMap, if_pos rfl]
    simp [setMap]
  · intro hnnil hlead
    have hlen : ¬ ((room.players.eraseIdx
        (room.players.findIdx fun p => p.id == pid)).length = 0) := by
      simpa [List.length_eq_zero] using hnnil
    simp only [removePlayer, hroom, hne, if_false, hlen, hlead, Bool.false_eq_true,
      if_true, setMap]
    simp
    intro rid hrid
    simp [hrid]

/-- The leader of the concrete C4 room. -/
def c4leader : Player :=
  { id := "L", name := "lia", socketId := "sL", roomId := "r2",
    isLeader := true, guesses := [], status := .waiting,
    joinTime := 0, currentRow := 0 }

/-- A non-leader member of the concrete C4 room. -/
def c4member : Player :=
  { id := "M", name := "mia", socketId := "sM", roomId := "r2",
    isLeader := false, guesses := [], status := .waiting,
    joinTime := 1, currentRow := 0 }

/-- The concrete C4 room. -/
def c4room : Room :=
  { id := "r2", code := "CODE22", players := [c4leader, c4member],
    status := .waiting, createdAt := 0, maxPlayers := 8, isPrivate := false }

/-- The concrete C4 registry state. -/
def c4state : RegistryState :=
  { rooms := fun x => if x = "r2" then some c4room else none,
    roomCodes := fun c => if c = "CODE22" then some "r2" else none }

/-- Witness for C4: removing the non-leader member of the concrete room. -/
theorem removePlayer_spec_witness :
    (c4room.players.getD (c4room.players.findIdx fun p => p.id == "M") default).id = "M" ∧
    (c4room.players.eraseIdx (c4room.players.findIdx fun p => p.id == "M") = [] →
      (removePlayer c4state "r2" "M").2 = ⟨none, true, some "empty"⟩ ∧
      (removePlayer c4state "r2" "M").1.rooms "r2" = none ∧
      (removePlayer c4state "r2" "M").1.roomCodes c4room.code = none) ∧
    (c4room.players.eraseIdx (c4room.players.findIdx fun p => p.id == "M") ≠ [] →
      (c4room.players.getD (c4room.players.findIdx fun p => p.id == "M") default).isLeader = true →
      (removePlayer c4state "r2" "M").2 = ⟨none, true, some "leader_left"⟩ ∧
      (removePlayer c4state "r2" "M").1.rooms "r2" = none ∧
      (removePlayer c4state "r2" "M").1.roomCodes c4room.code = none) ∧
    (c4room.players.eraseIdx (c4room.players.findIdx fun p => p.id == "M") ≠ [] →
      (c4room.players.getD (c4room.players.findIdx fun p => p.id == "M") default).isLeader = false →
      (removePlayer c4state "r2" "M").2 =
        ⟨some { c4room with players :=
          c4room.players.eraseIdx (c4room.players.findIdx fun p => p.id == "M") },
          false, none⟩ ∧
      (removePlayer c4state "r2" "M").1.rooms "r2" =
        some { c4room with players :=
          c4room.players.eraseIdx (c4room.players.findIdx fun p => p.id == "M") } ∧
      (removePlayer c4state "r2" "M").1.roomCodes = c4state.roomCodes ∧
      ∀ rid, rid ≠ "r2" → (removePlayer c4state "r2" "M").1.rooms rid = c4state.rooms rid) :=
  removePlayer_spec c4state "r2" "M" c4room (by simp [c4state]) ⟨c4member, by decide, rfl⟩

/-! ## Joining a room (C8) -/

/-- The claim's `InvalidPassword` condition: the room is private and the
supplied password is missing (JS-falsy: absent or empty) or does not match
the room's password. -/
def invalidPasswordCond (room : Room) (pw : Option String) : Prop :=
  room.isPrivate = true ∧ (pw.getD "" = "" ∨ pw ≠ room.password)

/-- **C8**: `joinRoom` fails exactly under the spec's conditions — unknown
code (`null`, the spec's `RoomNotFound`), private room with missing or
mismatched password (`InvalidPassword`, covering both thrown messages),
roster at capacity (`RoomFull`), exact duplicate name (`DuplicateName`) —
with the listed precedence; every failure leaves the registry completely
unchanged, and on success the sole state change is appending the new
non-leader player to the roster of the joined room. -/
theorem joinRoom_spec (st : RegistryState) (request : JoinRoomRequest)
    (socketId newPlayerId : String) (now : Int)
    (hcons : ∀ c rid, st.roomCodes c = some rid → (st.rooms rid).isSome) :
    ((joinRoom st request socketId newPlayerId now).2 = .ok none ↔
      st.roomCodes (toUpperStr request.roomCode) = none) ∧
    (∀ roomId room,
      st.roomCodes (toUpperStr request.roomCode) = some roomId →
      st.rooms roomId = some room →
      (((joinRoom st request socketId newPlayerId now).2 = .error .passwordRequired ∨
        (joinRoom st request socketId newPlayerId now).2 = .error .wrongPassword) ↔
        invalidPasswordCond room request.password) ∧
      ((joinRoom st request socketId newPlayerId now).2 = .error .roomFull ↔
        ¬ invalidPasswordCond room request.password ∧
        room.players.length ≥ room.maxPlayers) ∧
      ((joinRoom st request socketId newPlayerId now).2 = .error .duplicateName ↔
        ¬ invalidPasswordCond room request.password ∧
        room.players.length < room.maxPlayers ∧
        ∃ p ∈ room.players, p.name = request.playerName)) ∧
    (∀ e, (joinRoom st request socketId newPlayerId now).2 = .error e →
      (joinRoom st request socketId newPlayerId now).1.rooms = st.rooms ∧
      (joinRoom st request socketId newPlayerId now).1.roomCodes = st.roomCodes) ∧
    ((joinRoom st request socketId newPlayerId now).2 = .ok none →
      (joinRoom st request socketId newPlayerId now).1.rooms = st.rooms ∧
      (joinRoom st request socketId newPlayerId now).1.roomCodes = st.roomCodes) ∧
    (∀ rm pl, (joinRoom st request socketId newPlayerId now).2 = .ok (some (rm, pl)) →
      pl.isLeader = false ∧ pl.name = request.playerName ∧ pl.guesses = [] ∧
      pl.status = PlayerStatus.waiting ∧
      ∃ roomId room, st.roomCodes (toUpperStr request.roomCode) = some roomId ∧
        st.rooms roomId = some room ∧
        rm = { room with players := room.players ++ [pl] } ∧
        (joinRoom st request socketId newPlayerId now).1.rooms roomId = some rm ∧
        (joinRoom st request socketId newPlayerId now).1.roomCodes = st.roomCodes ∧
        ∀ rid, rid ≠ roomId →
          (joinRoom st request socketId newPlayerId now).1.rooms rid = st.rooms rid) := by
  rcases hc : st.roomCodes (toUpperStr request.roomCode) with _ | roomId
  · refine ⟨by simp [joinRoom, hc], ?_, ?_, ?_, ?_⟩
    · intro rid room hrid _
      simp at hrid
    · intro e he
      simp [joinRoom, hc] at he
    · intro _
      simp [joinRoom, hc]
    · intro rm pl h
      simp [joinRoom, hc] at h
  · have hsome := hcons _ _ hc
    rcases hrooms : st.rooms roomId with _ | room
    · rw [hrooms] at hsome
      simp at hsome
    by_cases h1 : room.isPrivate = true ∧ request.password.getD "" = ""
    · have hJ : joinRoom st request socketId newPlayerId now =
          (st, .error .passwordRequired) := by
        simp [joinRoom, hc, hrooms, h1]
      refine ⟨by simp [hJ, hc], ?_, by simp [hJ], by simp [hJ], by simp [hJ]⟩
      intro rid room2 hrid hroom2
      injection hrid with hrid
      subst hrid
      rw [hrooms] at hroom2
      injection hroom2 with hroom2
      subst hroom2
      refine ⟨?_, ?_, ?_⟩
      · simp only [hJ]
        simp [invalidPasswordCond, h1.1, Or.inl h1.2]
      · simp only [hJ]
        simp [invalidPasswordCond, h1.1, Or.inl h1.2]
      · simp only [hJ]
        simp [invalidPasswordCond, h1.1, Or.inl h1.2]
    · by_cases h2 : room.isPrivate = true ∧ request.password ≠ room.password
      · have hne1 : ¬ request.password.getD "" = "" := fun h => h1 ⟨h2.1, h⟩
        have hJ : joinRoom st request socketId newPlayerId now =
            (st, .error .wrongPassword) := by
          simp [joinRoom, hc, hrooms, hne1, h2]
        refine ⟨by simp [hJ, hc], ?_, by simp [hJ], by simp [hJ], by simp [hJ]⟩
        intro rid room2 hrid hroom2
        injection hrid with hrid
        subst hrid
        rw [hrooms] at hroom2
        injection hroom2 with hroom2
        subst hroom2
        refine ⟨?_, ?_, ?_⟩
        · simp only [hJ]
          simp [invalidPasswordCond, h2.1, Or.inr h2.2]
        · simp only [hJ]
          simp [invalidPasswordCond, h2.1, Or.inr h2.2]
        · simp only [hJ]
          simp [invalidPasswordCond, h2.1, Or.inr h2.2]
      · have hnpw : ¬ invalidPasswordCond room request.password := by
          intro h
          rcases h.2 with hngl | hne
          · exact h1 ⟨h.1, hngl⟩
          · exact h2 ⟨h.1, hne⟩
        by_cases h3 : room.players.length ≥ room.maxPlayers
        · have hJ : joinRoom st request socketId newPlayerId now =
              (st, .error .roomFull) := by
            simp [joinRoom, hc, hrooms, h1, h2, h3]
          refine ⟨by simp [hJ, hc], ?_, by simp [hJ], by simp [hJ], by simp [hJ]⟩
          intro rid room2 hrid hroom2
          injection hrid with hrid
          subst hrid
          rw [hrooms] at hroom2
          injection hroom2 with hroom2
          subst hroom2
          exact ⟨by simp [hJ, hnpw], by simp [hJ, hnpw, h3], by simp [hJ, hnpw, h3]⟩
        · by_cases h4 : (room.players.find? fun p => p.name == request.playerName).isSome
          · have hJ : joinRoom st request socketId newPlayerId now =
                (st, .error .duplicateName) := by
              simp [joinRoom, hc, hrooms, h1, h2, h3, h4]
            refine ⟨by simp [hJ, hc], ?_, by simp [hJ], by simp [hJ], by simp [hJ]⟩
            intro rid room2 hrid hroom2
            injection hrid with hrid
            subst hrid
            rw [hrooms] at hroom2
            injection hroom2 with hroom2
            subst hroom2
            have hex : ∃ p ∈ room.players, p.name = request.playerName := by
              obtain ⟨p, hp, hpn⟩ := List.find?_isSome.mp h4
              exact ⟨p, hp, by simpa using hpn⟩
            exact ⟨by simp [hJ, hnpw], by simp [hJ, hnpw, h3],
              by simp [hJ, hnpw, h3, hex]; omega⟩
          · have hJ : joinRoom st request socketId newPlayerId now =
                ({ st with rooms := setMap st.rooms roomId (some { room with
                    players := room.players ++
                      [{ id := newPlayerId, name := request.playerName,
                         socketId := socketId, roomId := roomId, isLeader := false,
                         guesses := [], status := .waiting, joinTime := now,
                         currentRow := 0 }] }) },
                 .ok (some ({ room with
                    players := room.players ++
                      [{ id := newPlayerId, name := request.playerName,
                         socketId := socketId, roomId := roomId, isLeader := false,
                         guesses := [], status := .waiting, joinTime := now,
                         currentRow := 0 }] },
                  { id := newPlayerId, name := request.playerName,
                    socketId := socketId, roomId := roomId, isLeader := false,
                    guesses := [], status := .waiting, joinTime := now,
                    currentRow := 0 }))) := by
              simp [joinRoom, hc, hrooms, h1, h2, h3, h4]
            have hnex : ¬ ∃ p ∈ room.players, p.name = request.playerName := by
              intro ⟨p, hp, hpn⟩
              exact h4 (List.find?_isSome.mpr ⟨p, hp, by simp [hpn]⟩)
            refine ⟨by simp [hJ, hc], ?_, by simp [hJ], by simp [hJ], ?_⟩
            · intro rid room2 hrid hroom2
              injection hrid with hrid
              subst hrid
              rw [hrooms] at hroom2
              injection hroom2 with hroom2
              subst hroom2
              exact ⟨by simp [hJ, hnpw], by simp [hJ, hnpw, h3],
                by simp [hJ, hnpw, h3, hnex]⟩
            · intro rm pl h
              rw [hJ] at h
              injection h with h
              injection h with h12
              obtain ⟨rfl, rfl⟩ := Prod.mk.inj h12
              refine ⟨rfl, rfl, rfl, rfl, roomId, room, rfl, hrooms, rfl, ?_, ?_, ?_⟩
              · simp [hJ, setMap]
              · simp [hJ]
              · intro rid hrid
                simp [hJ, setMap, hrid]

/-- The leader of the concrete C8 room. -/
def c8leader : Player :=
  { id := "L8", name := "leo", socketId := "sL8", roomId := "r3",
    isLeader := true, guesses := [], status := .waiting,
    joinTime := 0, currentRow := 0 }

/-- The concrete public C8 room. -/
def c8room : Room :=
  { id := "r3", code := "CODE33", players := [c8leader], status := .waiting,
    createdAt := 0, maxPlayers := 8, isPrivate := false }

/-- The concrete C8 registry state. -/
def c8state : RegistryState :=
  { rooms := fun x => if x = "r3" then some c8room else none,
    roomCodes := fun c => if c = "CODE33" then some "r3" else none }

/-- The concrete C8 join request (lower-case code, no password). -/
def c8req : JoinRoomRequest :=
  { roomCode := "code33", playerName := "nina" }

/-- Witness for C8: a successful join of the concrete public room. -/
theorem joinRoom_spec_witness :
    ((joinRoom c8state c8req "sock" "N1" 5).2 = .ok none ↔
      c8state.roomCodes (toUpperStr c8req.roomCode) = none) ∧
    (∀ roomId room,
      c8state.roomCodes (toUpperStr c8req.roomCode) = some roomId →
      c8state.rooms roomId = some room →
      (((joinRoom c8state c8req "sock" "N1" 5).2 = .error .passwordRequired ∨
        (joinRoom c8state c8req "sock" "N1" 5).2 = .error .wrongPassword) ↔
        invalidPasswordCond room c8req.password) ∧
      ((joinRoom c8state c8req "sock" "N1" 5).2 = .error .roomFull ↔
        ¬ invalidPasswordCond room c8req.password ∧
        room.players.length ≥ room.maxPlayers) ∧
      ((joinRoom c8state c8req "sock" "N1" 5).2 = .error .duplicateName ↔
        ¬ invalidPasswordCond room c8req.password ∧
        room.players.length < room.maxPlayers ∧
        ∃ p ∈ room.players, p.name = c8req.playerName)) ∧
    (∀ e, (joinRoom c8state c8req "sock" "N1" 5).2 = .error e →
      (joinRoom c8state c8req "sock" "N1" 5).1.rooms = c8state.rooms ∧
      (joinRoom c8state c8req "sock" "N1" 5).1.roomCodes = c8state.roomCodes) ∧
    ((joinRoom c8state c8req "sock" "N1" 5).2 = .ok none →
      (joinRoom c8state c8req "sock" "N1" 5).1.rooms = c8state.rooms ∧
      (joinRoom c8state c8req "sock" "N1" 5).1.roomCodes = c8state.roomCodes) ∧
    (∀ rm pl, (joinRoom c8state c8req "sock" "N1" 5).2 = .ok (some (rm, pl)) →
      pl.isLeader = false ∧ pl.name = c8req.playerName ∧ pl.guesses = [] ∧
      pl.status = PlayerStatus.waiting ∧
      ∃ roomId room, c8state.roomCodes (toUpperStr c8req.roomCode) = some roomId ∧
        c8state.rooms roomId = some room ∧
        rm = { room with players := room.players ++ [pl] } ∧
        (joinRoom c8state c8req "sock" "N1" 5).1.rooms roomId = some rm ∧
        (joinRoom c8state c8req "sock" "N1" 5).1.roomCodes = c8state.roomCodes ∧
        ∀ rid, rid ≠ roomId →
          (joinRoom c8state c8req "sock" "N1" 5).1.rooms rid = c8state.rooms rid) :=
  joinRoom_spec c8state c8req "sock" "N1" 5
    (by
      intro c rid h
      simp only [c8state] at h ⊢
      split at h
      · injection h with h
        subst h
        simp
      · simp at h)
